import Mathlib

/-!
Verification development for the COC Anestesia billing dashboard (src/app.py).

The embedding models the core pipeline of the source file:
  - the currency parser `limpar_moeda` (lines 62-69),
  - the duration parser `converter_para_horas` (lines 74-84),
  - the per-surgery pricing engine `calcular_faturamento_memoria` (lines 89-119),
  - the derived columns and aggregates (lines 130-145, 152, 217-219).

Modelling choices:
  - Python strings are `List Char`; `str.strip` is `pyStrip` (ASCII
    whitespace; Python also strips some further Unicode whitespace, which no
    claim depends on).
  - Python floats are `PyFloat`: an exact rational together with the IEEE
    special values `inf`, `neginf`, `nan`.  Binary64 rounding of finite
    values is abstracted away (arithmetic on finite values is exact); the
    special values and their propagation through `+`, `*`, `/`, `>` are
    modelled, because Python's `float(...)` accepts the literals
    `inf`/`infinity`/`nan` and saturates decimal literals beyond the binary64
    overflow bound to the infinities; pandas column sums skip NaN cells
    (`skipna=True`).  Signed zeros are not distinguished.
  - The spreadsheet rows loaded by `carregar_dados` (Google-Sheets plumbing,
    excluded from the core by the spec) appear as explicit association lists:
    `mapa_convenios` maps an agreement name to its fee row (column name to
    optional cell text, `none` standing for a NaN/absent cell fed to
    `pd.isna`), `mapa_cbhpm` maps a procedure code to its row (column name to
    cell text).  Python dicts have unique keys; lookup takes the first match.
  - `int(...)` and `float(...)` are modelled on ASCII digit strings with
    Python's underscore-grouping rule; non-ASCII digits are not modelled.
  - pandas `groupby` sorts group keys; only per-group contents and sums are
    stated here, which do not depend on the key order, so keys are listed in
    first-occurrence order.
-/

set_option maxRecDepth 8000

/- Batteries marks the arithmetic on `Rat` `@[irreducible]`, which blocks
`decide` on closed rational computations; restoring the default reducibility
only re-enables evaluation and has no effect on soundness (the kernel ignores
reducibility attributes). -/
set_option allowUnsafeReducibility true in
attribute [semireducible] Rat.add Rat.mul Rat.inv Rat.sub Rat.ofScientific

/-- ASCII whitespace test used by `pyStrip` (models `str.strip`). -/
def isSpace (c : Char) : Bool := c.isWhitespace

/-- Model of Python `str.strip()`: drop whitespace from both ends. -/
def pyStrip (s : List Char) : List Char :=
  ((s.dropWhile isSpace).reverse.dropWhile isSpace).reverse

/-- Model of Python `str.split(sep)` for a one-character separator class:
`splitOnPred p s` cuts `s` at every character satisfying `p`.  Like Python,
`''.split(':') = ['']` and separators at the ends produce empty parts. -/
def splitOnPred (p : Char → Bool) : List Char → List (List Char)
  | [] => [[]]
  | c :: cs =>
    match splitOnPred p cs with
    | [] => [[]]
    | r :: rs => if p c then [] :: r :: rs else (c :: r) :: rs

/-- Whether the first list is an initial segment of the second. -/
def listStartsWith : List Char → List Char → Bool
  | [], _ => true
  | _ :: _, [] => false
  | p :: ps, c :: cs => p == c && listStartsWith ps cs

/-- Model of `s.split(pat)[0]` for a nonempty separator `pat`: the prefix of
`s` before the first occurrence of `pat` (all of `s` when `pat` is absent). -/
def takeBeforeSub (pat : List Char) : List Char → List Char
  | [] => []
  | c :: cs => if listStartsWith pat (c :: cs) then [] else c :: takeBeforeSub pat cs

/-- Recursion core of `replaceSub`, structurally recursive on a fuel
counter so that the kernel can evaluate it; the fuel never runs out when it
starts at the length of the string (each step consumes at least one
character). -/
def replaceSubFuel (p0 : Char) (ps : List Char) (repl : List Char) : Nat → List Char → List Char
  | _, [] => []
  | 0, l => l
  | fuel + 1, c :: cs =>
    if listStartsWith (p0 :: ps) (c :: cs) then
      repl ++ replaceSubFuel p0 ps repl fuel (cs.drop ps.length)
    else
      c :: replaceSubFuel p0 ps repl fuel cs

/-- Model of Python `str.replace(pat, repl)` for the nonempty pattern
`p0 :: ps`: replace every (leftmost, non-overlapping) occurrence. -/
def replaceSub (p0 : Char) (ps : List Char) (repl : List Char) (s : List Char) : List Char :=
  replaceSubFuel p0 ps repl s.length s

/-- Association-list lookup (model of Python dict access: keys are unique,
so first match is the match). -/
def lookupA {α : Type} : List (List Char × α) → List Char → Option α
  | [], _ => none
  | (k, v) :: rest, key => if k = key then some v else lookupA rest key

/-- Association-list lookup with default (model of `dict.get(key, default)`). -/
def lookupD {α : Type} (m : List (List Char × α)) (k : List Char) (d : α) : α :=
  (lookupA m k).getD d

/-- Model of Python `str.isdigit()` on ASCII text: nonempty and all digits. -/
def pyIsdigit (s : List Char) : Bool := !s.isEmpty && s.all (fun c => c.isDigit)

/-- Numeric value of a digit string, most significant digit first. -/
def digitsVal (s : List Char) : Nat :=
  s.foldl (fun a c => a * 10 + (c.toNat - ('0').toNat)) 0

/-- Tail of Python's digit-run grammar: digits with single underscores allowed
only between digits (`1_0` is valid, `_1`, `1_`, `1__0` are not). -/
def uTail : List Char → Bool
  | [] => true
  | c :: rest =>
    if c = '_' then
      match rest with
      | [] => false
      | d :: rest2 => d.isDigit && uTail rest2
    else c.isDigit && uTail rest

/-- A valid (nonempty) Python digit run with underscore grouping. -/
def uRun : List Char → Bool
  | [] => false
  | c :: rest => c.isDigit && uTail rest

/-- Drop the underscore group separators out of a digit run. -/
def stripU (s : List Char) : List Char := s.filter (fun c => !(c == '_'))

/-- Value of a digit run if it obeys Python's grammar. -/
def pyIntCore (s : List Char) : Option Nat :=
  if uRun s then some (digitsVal (stripU s)) else none

/-- Model of Python `int(str)`: strip whitespace, optional sign, digit run;
`none` models the `ValueError` that `converter_para_horas` swallows. -/
def pyInt (s : List Char) : Option Int :=
  match pyStrip s with
  | [] => none
  | c :: rest =>
    if c = '+' then (pyIntCore rest).map (fun n => (n : Int))
    else if c = '-' then (pyIntCore rest).map (fun n => -(n : Int))
    else (pyIntCore (c :: rest)).map (fun n => (n : Int))

/-- Python float values: exact rational plus the IEEE special values. -/
inductive PyFloat where
  | finite (q : ℚ)
  | inf
  | neginf
  | nan
deriving DecidableEq, Repr

/-- Whether a `PyFloat` is a finite number. -/
def isFinitePF : PyFloat → Bool
  | PyFloat.finite _ => true
  | _ => false

/-- Python float addition (exact on finite values, IEEE special rules). -/
def addPF : PyFloat → PyFloat → PyFloat
  | PyFloat.nan, _ => PyFloat.nan
  | _, PyFloat.nan => PyFloat.nan
  | PyFloat.inf, PyFloat.neginf => PyFloat.nan
  | PyFloat.neginf, PyFloat.inf => PyFloat.nan
  | PyFloat.inf, _ => PyFloat.inf
  | _, PyFloat.inf => PyFloat.inf
  | PyFloat.neginf, _ => PyFloat.neginf
  | _, PyFloat.neginf => PyFloat.neginf
  | PyFloat.finite a, PyFloat.finite b => PyFloat.finite (a + b)

/-- Python float multiplication (exact on finite values, IEEE special rules;
`inf * 0 = nan`). -/
def mulPF : PyFloat → PyFloat → PyFloat
  | PyFloat.nan, _ => PyFloat.nan
  | _, PyFloat.nan => PyFloat.nan
  | PyFloat.inf, PyFloat.inf => PyFloat.inf
  | PyFloat.inf, PyFloat.neginf => PyFloat.neginf
  | PyFloat.neginf, PyFloat.inf => PyFloat.neginf
  | PyFloat.neginf, PyFloat.neginf => PyFloat.inf
  | PyFloat.inf, PyFloat.finite b =>
    if b = 0 then PyFloat.nan else if b < 0 then PyFloat.neginf else PyFloat.inf
  | PyFloat.finite a, PyFloat.inf =>
    if a = 0 then PyFloat.nan else if a < 0 then PyFloat.neginf else PyFloat.inf
  | PyFloat.neginf, PyFloat.finite b =>
    if b = 0 then PyFloat.nan else if b < 0 then PyFloat.inf else PyFloat.neginf
  | PyFloat.finite a, PyFloat.neginf =>
    if a = 0 then PyFloat.nan else if a < 0 then PyFloat.inf else PyFloat.neginf
  | PyFloat.finite a, PyFloat.finite b => PyFloat.finite (a * b)

/-- Float division as the pipeline meets it (pandas/numpy semantics: division
by zero yields `inf`/`-inf`/`nan` instead of raising; every division in the
modelled code is guarded by a strictly positive divisor, so the zero-divisor
convention is unobservable in the theorems below). -/
def divPF : PyFloat → PyFloat → PyFloat
  | PyFloat.nan, _ => PyFloat.nan
  | _, PyFloat.nan => PyFloat.nan
  | PyFloat.inf, PyFloat.inf => PyFloat.nan
  | PyFloat.inf, PyFloat.neginf => PyFloat.nan
  | PyFloat.neginf, PyFloat.inf => PyFloat.nan
  | PyFloat.neginf, PyFloat.neginf => PyFloat.nan
  | PyFloat.inf, PyFloat.finite b => if b < 0 then PyFloat.neginf else PyFloat.inf
  | PyFloat.neginf, PyFloat.finite b => if b < 0 then PyFloat.inf else PyFloat.neginf
  | PyFloat.finite _, PyFloat.inf => PyFloat.finite 0
  | PyFloat.finite _, PyFloat.neginf => PyFloat.finite 0
  | PyFloat.finite a, PyFloat.finite b =>
    if b = 0 then
      (if a = 0 then PyFloat.nan else if a < 0 then PyFloat.neginf else PyFloat.inf)
    else PyFloat.finite (a / b)

/-- Python float comparison `a > b` (`nan` compares false). -/
def gtPF : PyFloat → PyFloat → Bool
  | PyFloat.nan, _ => false
  | _, PyFloat.nan => false
  | PyFloat.inf, PyFloat.inf => false
  | PyFloat.inf, _ => true
  | PyFloat.neginf, _ => false
  | PyFloat.finite _, PyFloat.inf => false
  | PyFloat.finite _, PyFloat.neginf => true
  | PyFloat.finite a, PyFloat.finite b => decide (b < a)

/-- Plain float sum of a list of Python floats. -/
def listSumPF (l : List PyFloat) : PyFloat := l.foldr addPF (PyFloat.finite 0)

/-- Model of a pandas `.sum()` over a float column (`skipna=True`, the
default): NaN cells are skipped, everything else is summed; an empty or
all-NaN column sums to `0`. -/
def pdSumPF (l : List PyFloat) : PyFloat :=
  listSumPF (l.filter (fun x => !(x == PyFloat.nan)))

/-- Case-insensitive comparison of `s` against an (already lowercase)
literal, as Python's float parser does for `inf`/`infinity`/`nan`. -/
def lowerEqList (s : List Char) (lit : List Char) : Bool :=
  (s.map Char.toLower) == lit

/-- Mantissa of a Python float literal: `digits`, `digits.digits`,
`digits.` or `.digits`, each run obeying the underscore grammar. -/
def mantissaVal (m : List Char) : Option ℚ :=
  match splitOnPred (fun c => c == '.') m with
  | [a] => if uRun a then some ((digitsVal (stripU a) : ℚ)) else none
  | [a, b] =>
    if uRun a && uRun b then
      some ((digitsVal (stripU a) : ℚ) + (digitsVal (stripU b) : ℚ) / ((10 : ℚ) ^ (stripU b).length))
    else if uRun a && b.isEmpty then some ((digitsVal (stripU a) : ℚ))
    else if a.isEmpty && uRun b then
      some ((digitsVal (stripU b) : ℚ) / ((10 : ℚ) ^ (stripU b).length))
    else none
  | _ => none

/-- Exponent part of a Python float literal: optional sign, digit run. -/
def expValPy : List Char → Option Int
  | [] => none
  | c :: r =>
    if c = '+' then (if uRun r then some ((digitsVal (stripU r) : Int)) else none)
    else if c = '-' then (if uRun r then some (-(digitsVal (stripU r) : Int)) else none)
    else (if uRun (c :: r) then some ((digitsVal (stripU (c :: r)) : Int)) else none)

/-- Numeric value of a Python float literal body (no sign, no specials):
mantissa with optional `e`/`E` exponent. -/
def decimalVal (l : List Char) : Option ℚ :=
  match splitOnPred (fun c => c == 'e' || c == 'E') l with
  | [m] => mantissaVal m
  | [m, e] =>
    match mantissaVal m, expValPy e with
    | some q, some ex => some (q * (10 : ℚ) ^ ex)
    | _, _ => none
  | _ => none

/-- Binary64 overflow bound: under round-to-nearest-even, a real value `x`
rounds to infinity exactly when `|x| ≥ 2^1024 - 2^970` (the midpoint between
the largest finite double `2^1024 - 2^971` and `2^1024`; the tie goes to the
even `2^1024`).  Python `float(str)` saturates overflowing decimal literals
to `inf`/`-inf` without raising.  Written as a numeral (= `2^1024 - 2^970`,
see `ovThreshold_eq`) so that evaluation needs no deep power recursion. -/
def ovThreshold : ℚ := 179769313486231580793728971405303415079934132710037826936173778980444968292764750946649017977587207096330286416692887910946555547851940402630657488671505820681908902000708383676273854845817711531764475730270069855571366959622842914819860834936475292719074168444365510704342711559699508093042880177904174497792

/-- Signed body of Python `float(str)` after the sign has been removed:
the special literals or a decimal literal; decimal values at or beyond the
binary64 overflow bound saturate to the infinities, as `float()` does. -/
def pyfloatBody (sign : ℚ) (body : List Char) : Option PyFloat :=
  if lowerEqList body (['i', 'n', 'f']) || lowerEqList body (['i', 'n', 'f', 'i', 'n', 'i', 't', 'y']) then
    some (if sign < 0 then PyFloat.neginf else PyFloat.inf)
  else if lowerEqList body (['n', 'a', 'n']) then some PyFloat.nan
  else
    (decimalVal body).map (fun q =>
      if ovThreshold ≤ sign * q then PyFloat.inf
      else if sign * q ≤ -ovThreshold then PyFloat.neginf
      else PyFloat.finite (sign * q))

/-- Model of Python `float(str)`: strip, optional sign, then the body.
`none` models the `ValueError` that `limpar_moeda` swallows.  Finite results
are exact rationals (binary64 rounding/overflow is abstracted). -/
def pyfloat (s : List Char) : Option PyFloat :=
  match pyStrip s with
  | [] => pyfloatBody 1 []
  | c :: rest =>
    if c = '+' then pyfloatBody 1 rest
    else if c = '-' then pyfloatBody (-1) rest
    else pyfloatBody 1 (c :: rest)

/-- The cleaning chain of `limpar_moeda` (line 65):
`str(valor).replace('R$', '').replace('.', '').replace(',', '.').strip()`. -/
def limparClean (s : List Char) : List Char :=
  pyStrip (replaceSub ',' [] ['.'] (replaceSub '.' [] [] (replaceSub 'R' ['$'] [] s)))

/-- Model of `limpar_moeda` (lines 62-69).  The argument is the string form
of the cell; `none` models a value for which `pd.isna(valor)` holds. -/
def limpar_moeda (valor : Option (List Char)) : PyFloat :=
  match valor with
  | none => PyFloat.finite 0
  | some s =>
    if pyStrip s = ['-'] ∨ pyStrip s = [] ∨ pyStrip s = ['0'] then PyFloat.finite 0
    else
      match pyfloat (limparClean s) with
      | some f => f
      | none => PyFloat.finite 0

/-- Model of `converter_para_horas` (lines 74-84).  Exact rational hours;
`none` models both explicit `return None` and the swallowed exceptions.
The source checks `len(partes) != 2` and then indexes `partes[0]`,
`partes[1]`; matching on the two-element list is the same test. -/
def converter_para_horas (duracao_str : List Char) : Option ℚ :=
  let texto := pyStrip duracao_str
  if texto = [] ∨ texto = ['n', 'a', 'n'] then none
  else
    match splitOnPred (fun c => c == ':') texto with
    | [a, b] =>
      match pyInt a, pyInt b with
      | some h, some m => some ((h : ℚ) + (m : ℚ) / 60)
      | _, _ => none
    | _ => none

/-- Fee row of one agreement: column name (`AN1`, `AN2`, ...) to cell; a
`none` cell is one for which `pd.isna` holds inside `limpar_moeda`. -/
abbrev ConvRow := List (List Char × Option (List Char))

/-- CBHPM row of one procedure code: column name to cell text. -/
abbrev CbhpmRow := List (List Char × List Char)

/-- `mapa_convenios` (line 87): agreement name to fee row. -/
abbrev MapaConvenios := List (List Char × ConvRow)

/-- `mapa_cbhpm` (line 86): procedure code to CBHPM row. -/
abbrev MapaCbhpm := List (List Char × CbhpmRow)

/-- The column name `Porte Anest.`. -/
def porteCol : List Char := ['P', 'o', 'r', 't', 'e', ' ', 'A', 'n', 'e', 's', 't', '.']

/-- One surgery row: the three cells the core reads (other columns pass
through untouched). -/
structure Cirurgia where
  convenio : List Char
  procedimento : List Char
  duracao : List Char
deriving DecidableEq, Repr

/-- The price of one resolved CBHPM row against a fee row (lines 108-113):
zero unless `Porte Anest.` is all digits and column `AN<porte>` exists. -/
def precoPorte (linha_convenio : ConvRow) (linha_cbhpm : CbhpmRow) : PyFloat :=
  let porte := pyStrip (lookupD linha_cbhpm porteCol [])
  if pyIsdigit porte then
    match lookupA linha_convenio (['A', 'N'] ++ porte) with
    | some cell => limpar_moeda cell
    | none => PyFloat.finite 0
  else PyFloat.finite 0

/-- The procedure code of one list entry (line 103):
`proc.split(" - ")[0].strip()`. -/
def procCodigo (proc : List Char) : List Char :=
  pyStrip (takeBeforeSub [' ', '-', ' '] proc)

/-- The fee-schedule price of one procedure-list entry: `0.0` when the code,
the size class, or the `AN` column fails to resolve (lines 103-113). -/
def precoEntry (mapa_cbhpm : MapaCbhpm) (linha_convenio : ConvRow) (proc : List Char) : PyFloat :=
  match lookupA mapa_cbhpm (procCodigo proc) with
  | none => PyFloat.finite 0
  | some linha_cbhpm => precoPorte linha_convenio linha_cbhpm

/-- The pricing loop of `calcular_faturamento_memoria` (lines 102-118):
`enumerate` index `i`, `continue` on unknown codes, full price at `i = 0`,
half price afterwards, accumulated left to right. -/
def loopProcs (mapa_cbhpm : MapaCbhpm) (linha_convenio : ConvRow) :
    Nat → List (List Char) → PyFloat → PyFloat
  | _, [], acc => acc
  | i, proc :: rest, acc =>
    match lookupA mapa_cbhpm (procCodigo proc) with
    | none => loopProcs mapa_cbhpm linha_convenio (i + 1) rest acc
    | some linha_cbhpm =>
      loopProcs mapa_cbhpm linha_convenio (i + 1) rest
        (addPF acc
          (if i = 0 then precoPorte linha_convenio linha_cbhpm
           else mulPF (precoPorte linha_convenio linha_cbhpm) (PyFloat.finite (1 / 2))))

/-- Model of `calcular_faturamento_memoria` (lines 89-119).  The guard
`if not convenio or not procs_str or procs_str == 'nan'` and the guard
`if not linha_convenio` (which is also true for an empty row dict) return
`0.0` before any pricing. -/
def calcular_faturamento_memoria (mapa_convenios : MapaConvenios) (mapa_cbhpm : MapaCbhpm)
    (row : Cirurgia) : PyFloat :=
  let convenio := pyStrip row.convenio
  let procs_str := pyStrip row.procedimento
  if convenio = [] ∨ procs_str = [] ∨ procs_str = ['n', 'a', 'n'] then PyFloat.finite 0
  else
    match lookupA mapa_convenios convenio with
    | none => PyFloat.finite 0
    | some linha_convenio =>
      if linha_convenio = [] then PyFloat.finite 0
      else
        loopProcs mapa_cbhpm linha_convenio 0
          (splitOnPred (fun c => c == '\n') procs_str) (PyFloat.finite 0)

/-- One surgery row with the three derived columns of lines 130-141:
`Valor Virtual`, `Horas` and `R$/Hora` (the raw `CONVÊNIO` cell is kept for
`groupby`). -/
structure Derived where
  conv : List Char
  valor : PyFloat
  horas : Option ℚ
  rshora : Option PyFloat
deriving DecidableEq, Repr

/-- Derivation of the computed columns for one row (lines 130, 136-141):
`R$/Hora` is `Valor Virtual / Horas` when `Horas` is present and `> 0`,
otherwise `None`. -/
def deriveRow (mapa_convenios : MapaConvenios) (mapa_cbhpm : MapaCbhpm) (r : Cirurgia) : Derived :=
  let v := calcular_faturamento_memoria mapa_convenios mapa_cbhpm r
  let h := converter_para_horas r.duracao
  { conv := r.convenio
    valor := v
    horas := h
    rshora :=
      match h with
      | some hq => if 0 < hq then some (divPF v (PyFloat.finite hq)) else none
      | none => none }

/-- The derived table: every surgery row with its computed columns. -/
def derive (mapa_convenios : MapaConvenios) (mapa_cbhpm : MapaCbhpm)
    (rows : List Cirurgia) : List Derived :=
  rows.map (deriveRow mapa_convenios mapa_cbhpm)

/-- `faturamento_total` (line 143): the pandas sum of `Valor Virtual` over
all rows, which skips NaN cells. -/
def faturamento_total (mapa_convenios : MapaConvenios) (mapa_cbhpm : MapaCbhpm)
    (rows : List Cirurgia) : PyFloat :=
  pdSumPF ((derive mapa_convenios mapa_cbhpm rows).map (fun d => d.valor))

/-- `total_cirurgias` (line 144): the number of surgery rows. -/
def total_cirurgias (rows : List Cirurgia) : Nat := rows.length

/-- `ticket_medio` (line 145): total over count, `0` when there are no rows. -/
def ticket_medio (mapa_convenios : MapaConvenios) (mapa_cbhpm : MapaCbhpm)
    (rows : List Cirurgia) : PyFloat :=
  if total_cirurgias rows ≠ 0 then
    divPF (faturamento_total mapa_convenios mapa_cbhpm rows)
      (PyFloat.finite (total_cirurgias rows))
  else PyFloat.finite 0

/-- Whether a `R$/Hora` cell counts as missing for `dropna`: both `None`
and float `nan` are na to pandas. -/
def isNA : Option PyFloat → Bool
  | none => true
  | some PyFloat.nan => true
  | some _ => false

/-- `df_validos` (line 152): `dropna(subset=['R$/Hora'])`. -/
def df_validos (mapa_convenios : MapaConvenios) (mapa_cbhpm : MapaCbhpm)
    (rows : List Cirurgia) : List Derived :=
  (derive mapa_convenios mapa_cbhpm rows).filter (fun d => !(isNA d.rshora))

/-- First-occurrence deduplication, giving the distinct group keys of
`groupby('CONVÊNIO')` (pandas sorts the keys; every statement below is
about per-group contents or sums over all groups, which do not depend on
the key order). -/
def dedupFuel : Nat → List (List Char) → List (List Char)
  | _, [] => []
  | 0, l => l
  | fuel + 1, k :: rest => k :: dedupFuel fuel (rest.filter (fun x => !(x == k)))

/-- Wrapper running the deduplication with enough fuel for the whole list. -/
def dedupF (l : List (List Char)) : List (List Char) := dedupFuel l.length l

/-- The distinct agreement names appearing in `df_validos`. -/
def convKeys (mapa_convenios : MapaConvenios) (mapa_cbhpm : MapaCbhpm)
    (rows : List Cirurgia) : List (List Char) :=
  dedupF ((df_validos mapa_convenios mapa_cbhpm rows).map (fun d => d.conv))

/-- The rows of one `groupby('CONVÊNIO')` group of `df_validos` (line 217). -/
def grupo (mapa_convenios : MapaConvenios) (mapa_cbhpm : MapaCbhpm)
    (rows : List Cirurgia) (k : List Char) : List Derived :=
  (df_validos mapa_convenios mapa_cbhpm rows).filter (fun d => d.conv == k)

/-- Per-group `Valor Virtual` sum (line 217); the pandas `groupby` sum also
skips NaN cells (the group rows, being `df_validos` rows, never carry one,
as proved below). -/
def resumo_valor (mapa_convenios : MapaConvenios) (mapa_cbhpm : MapaCbhpm)
    (rows : List Cirurgia) (k : List Char) : PyFloat :=
  pdSumPF ((grupo mapa_convenios mapa_cbhpm rows k).map (fun d => d.valor))

/-- Per-group `Horas` sum (line 217).  Valid rows always carry hours, so the
`getD 0` default is never the summand. -/
def resumo_horas (mapa_convenios : MapaConvenios) (mapa_cbhpm : MapaCbhpm)
    (rows : List Cirurgia) (k : List Char) : ℚ :=
  ((grupo mapa_convenios mapa_cbhpm rows k).map (fun d => d.horas.getD 0)).sum

/-- Per-group `R$/Hora` (line 218): group value over group hours. -/
def resumo_rshora (mapa_convenios : MapaConvenios) (mapa_cbhpm : MapaCbhpm)
    (rows : List Cirurgia) (k : List Char) : PyFloat :=
  divPF (resumo_valor mapa_convenios mapa_cbhpm rows k)
    (PyFloat.finite (resumo_horas mapa_convenios mapa_cbhpm rows k))

/-- Per-group `% Faturamento` (line 219): `group value / faturamento_total
* 100` when `faturamento_total > 0`, else the whole column is `0`. -/
def pct_faturamento (mapa_convenios : MapaConvenios) (mapa_cbhpm : MapaCbhpm)
    (rows : List Cirurgia) (k : List Char) : PyFloat :=
  if gtPF (faturamento_total mapa_convenios mapa_cbhpm rows) (PyFloat.finite 0) then
    mulPF
      (divPF (resumo_valor mapa_convenios mapa_cbhpm rows k)
        (faturamento_total mapa_convenios mapa_cbhpm rows))
      (PyFloat.finite 100)
  else PyFloat.finite 0

/-- Sum of the `% Faturamento` column over all groups of the summary. -/
def sharesSum (mapa_convenios : MapaConvenios) (mapa_cbhpm : MapaCbhpm)
    (rows : List Cirurgia) : PyFloat :=
  listSumPF ((convKeys mapa_convenios mapa_cbhpm rows).map
    (pct_faturamento mapa_convenios mapa_cbhpm rows))

/-! ### Algebraic facts about the float model -/

theorem listSumPF_nil : listSumPF [] = PyFloat.finite 0 := rfl

theorem listSumPF_cons (x : PyFloat) (l : List PyFloat) :
    listSumPF (x :: l) = addPF x (listSumPF l) := rfl

theorem addPF_zero_left (a : PyFloat) : addPF (PyFloat.finite 0) a = a := by
  cases a <;> simp [addPF]

theorem addPF_zero_right (a : PyFloat) : addPF a (PyFloat.finite 0) = a := by
  cases a <;> simp [addPF]

theorem addPF_comm (a b : PyFloat) : addPF a b = addPF b a := by
  cases a <;> cases b <;> simp [addPF, add_comm]

theorem addPF_assoc (a b c : PyFloat) :
    addPF (addPF a b) c = addPF a (addPF b c) := by
  cases a <;> cases b <;> cases c <;> simp [addPF, add_assoc]

theorem mulPF_add_distrib {c : ℚ} (hc : 0 < c) (a b : PyFloat) :
    mulPF (addPF a b) (PyFloat.finite c) =
      addPF (mulPF a (PyFloat.finite c)) (mulPF b (PyFloat.finite c)) := by
  cases a <;> cases b <;>
    simp [addPF, mulPF, hc.ne', not_lt.mpr hc.le, add_mul]

theorem gtPF_zero_iff (T : PyFloat) :
    gtPF T (PyFloat.finite 0) = true ↔
      T = PyFloat.inf ∨ ∃ q : ℚ, 0 < q ∧ T = PyFloat.finite q := by
  cases T <;> simp [gtPF]

theorem divPF_add_distrib {T : PyFloat} (hT : gtPF T (PyFloat.finite 0) = true)
    (a b : PyFloat) :
    divPF (addPF a b) T = addPF (divPF a T) (divPF b T) := by
  rcases (gtPF_zero_iff T).mp hT with rfl | ⟨q, hq, rfl⟩
  · cases a <;> cases b <;> simp [addPF, divPF]
  · cases a <;> cases b <;>
      simp [addPF, divPF, hq.ne', not_lt.mpr hq.le, add_div]

theorem sum_map_mulPF {α : Type} {c : ℚ} (hc : 0 < c) (f : α → PyFloat) (l : List α) :
    listSumPF (l.map (fun a => mulPF (f a) (PyFloat.finite c))) =
      mulPF (listSumPF (l.map f)) (PyFloat.finite c) := by
  induction l with
  | nil => simp [listSumPF_nil, mulPF, zero_mul]
  | cons x xs ih =>
    simp only [List.map_cons, listSumPF_cons, ih, mulPF_add_distrib hc]

theorem sum_map_divPF {α : Type} {T : PyFloat} (hT : gtPF T (PyFloat.finite 0) = true)
    (f : α → PyFloat) (l : List α) :
    listSumPF (l.map (fun a => divPF (f a) T)) = divPF (listSumPF (l.map f)) T := by
  induction l with
  | nil =>
    rcases (gtPF_zero_iff T).mp hT with rfl | ⟨q, hq, rfl⟩
    · simp [listSumPF_nil, divPF]
    · simp [listSumPF_nil, divPF, hq.ne', zero_div]
  | cons x xs ih =>
    simp only [List.map_cons, listSumPF_cons, ih, divPF_add_distrib hT]

theorem sumPF_split {α : Type} (p : α → Bool) (f : α → PyFloat) (l : List α) :
    listSumPF (l.map f) =
      addPF (listSumPF ((l.filter p).map f))
        (listSumPF ((l.filter (fun a => !(p a))).map f)) := by
  induction l with
  | nil => simp [listSumPF_nil, addPF]
  | cons x xs ih =>
    cases hp : p x
    case false =>
      have h1 : (x :: xs).filter p = xs.filter p := by simp [List.filter_cons, hp]
      have h2 : (x :: xs).filter (fun a => !(p a)) = x :: xs.filter (fun a => !(p a)) := by
        simp [List.filter_cons, hp]
      rw [List.map_cons, listSumPF_cons, ih, h1, h2, List.map_cons, listSumPF_cons,
        ← addPF_assoc, ← addPF_assoc,
        addPF_comm (f x) (listSumPF ((xs.filter p).map f))]
    case true =>
      have h1 : (x :: xs).filter p = x :: xs.filter p := by simp [List.filter_cons, hp]
      have h2 : (x :: xs).filter (fun a => !(p a)) = xs.filter (fun a => !(p a)) := by
        simp [List.filter_cons, hp]
      rw [List.map_cons, listSumPF_cons, ih, h1, h2, List.map_cons, listSumPF_cons, addPF_assoc]

theorem length_split {α : Type} (p : α → Bool) (l : List α) :
    l.length = (l.filter p).length + (l.filter (fun a => !(p a))).length := by
  induction l with
  | nil => simp
  | cons x xs ih =>
    cases hp : p x <;>
      simp [List.filter_cons, hp, ih] <;> omega

theorem listSumPF_all_zero {α : Type} (f : α → PyFloat) (l : List α)
    (h : ∀ a ∈ l, f a = PyFloat.finite 0) : listSumPF (l.map f) = PyFloat.finite 0 := by
  induction l with
  | nil => rfl
  | cons x xs ih =>
    simp only [List.map_cons, listSumPF_cons, h x (List.mem_cons_self x xs)]
    rw [ih (fun a ha => h a (List.mem_cons_of_mem x ha)), addPF_zero_right]

/-! ### Grouping: the sum over the `groupby` groups is the column sum -/

theorem filterMapComm {α β : Type} (g : α → β) (p : β → Bool) (l : List α) :
    (l.map g).filter p = (l.filter (fun a => p (g a))).map g := by
  induction l with
  | nil => rfl
  | cons x xs ih =>
    cases hp : p (g x) <;> simp [List.filter_cons, hp, ih]

theorem mapCongrMem {α β : Type} {f g : α → β} {l : List α}
    (h : ∀ a ∈ l, f a = g a) : l.map f = l.map g := by
  induction l with
  | nil => rfl
  | cons x xs ih =>
    simp only [List.map_cons, h x (List.mem_cons_self x xs)]
    rw [ih (fun a ha => h a (List.mem_cons_of_mem x ha))]

theorem dedupFuel_congr : ∀ (f1 f2 : Nat) (l : List (List Char)),
    l.length ≤ f1 → l.length ≤ f2 → dedupFuel f1 l = dedupFuel f2 l := by
  intro f1
  induction f1 with
  | zero =>
    intro f2 l h1 _
    have : l = [] := List.length_eq_zero.mp (Nat.le_zero.mp h1)
    subst this
    cases f2 <;> rfl
  | succ f ih =>
    intro f2 l h1 h2
    cases l with
    | nil => cases f2 <;> rfl
    | cons k rest =>
      cases f2 with
      | zero =>
        exfalso
        simp only [List.length_cons] at h2
        omega
      | succ f2m =>
        simp only [dedupFuel, List.cons.injEq, true_and]
        apply ih
        · have := List.length_filter_le (fun x => !(x == k)) rest
          simp only [List.length_cons] at h1
          omega
        · have := List.length_filter_le (fun x => !(x == k)) rest
          simp only [List.length_cons] at h2
          omega

theorem dedupF_nil : dedupF [] = [] := rfl

theorem dedupF_cons (k : List Char) (rest : List (List Char)) :
    dedupF (k :: rest) = k :: dedupF (rest.filter (fun x => !(x == k))) := by
  unfold dedupF
  simp only [List.length_cons, dedupFuel, List.cons.injEq, true_and]
  apply dedupFuel_congr
  · exact List.length_filter_le _ _
  · exact Nat.le_refl _

theorem mem_dedupF {x : List Char} : ∀ {l : List (List Char)}, x ∈ dedupF l → x ∈ l := by
  intro l
  generalize hn : l.length = n
  induction n using Nat.strong_induction_on generalizing l with
  | _ n IH =>
    cases l with
    | nil =>
      rw [dedupF_nil]
      exact fun h => h
    | cons k rest =>
      rw [dedupF_cons]
      intro h
      rcases List.mem_cons.mp h with rfl | h2
      · exact List.mem_cons_self _ _
      · have hlen : (rest.filter (fun x => !(x == k))).length < n := by
          have := List.length_filter_le (fun x => !(x == k)) rest
          simp only [List.length_cons] at hn
          omega
        exact List.mem_cons_of_mem _ (List.mem_of_mem_filter (IH _ hlen rfl h2))

theorem filter_filter_of_ne {α : Type} (key : α → List Char) {k k0 : List Char}
    (hne : k ≠ k0) (xs : List α) :
    (xs.filter (fun a => !(key a == k0))).filter (fun a => key a == k) =
      xs.filter (fun a => key a == k) := by
  induction xs with
  | nil => rfl
  | cons x xs ih =>
    by_cases h0 : key x = k0
    · have hk : (key x == k) = false := by
        rw [beq_eq_false_iff_ne]
        intro hh
        exact hne (hh ▸ h0)
      have h0b : (key x == k0) = true := beq_iff_eq.mpr h0
      simp only [List.filter_cons, h0b, Bool.not_true, hk, if_neg, Bool.false_eq_true,
        if_false, ih]
    · have h0b : (!(key x == k0)) = true := by
        simp [h0]
      cases hk : (key x == k) <;>
        simp [List.filter_cons, h0b, hk, ih]

theorem sumPF_groups {α : Type} (key : α → List Char) (f : α → PyFloat) :
    ∀ l : List α,
      listSumPF ((dedupF (l.map key)).map
        (fun k => listSumPF ((l.filter (fun a => key a == k)).map f)))
        = listSumPF (l.map f) := by
  intro l
  generalize hn : l.length = n
  induction n using Nat.strong_induction_on generalizing l with
  | _ n IH =>
    cases l with
    | nil => simp [dedupF_nil, listSumPF_nil]
    | cons x xs =>
      have hfilterx : (x :: xs).filter (fun a => key a == key x) =
          x :: xs.filter (fun a => key a == key x) := by
        simp [List.filter_cons]
      have hdedup : dedupF ((x :: xs).map key) =
          key x :: dedupF ((xs.filter (fun a => !(key a == key x))).map key) := by
        rw [List.map_cons, dedupF_cons, filterMapComm]
      have hgroups : ∀ k ∈ dedupF ((xs.filter (fun a => !(key a == key x))).map key),
          listSumPF (((x :: xs).filter (fun a => key a == k)).map f) =
            listSumPF (((xs.filter (fun a => !(key a == key x))).filter
              (fun a => key a == k)).map f) := by
        intro k hk
        obtain ⟨a, ha, rfl⟩ := List.mem_map.mp (mem_dedupF hk)
        have hane : (!(key a == key x)) = true := (List.mem_filter.mp ha).2
        have hne : key a ≠ key x := by simpa using hane
        have hxk : (key x == key a) = false := by
          rw [beq_eq_false_iff_ne]
          exact fun hh => hne hh.symm
        rw [List.filter_cons]
        rw [filter_filter_of_ne key hne xs]
        simp [hxk]
      have hlen : (xs.filter (fun a => !(key a == key x))).length < n := by
        have h1 := List.length_filter_le (fun a => !(key a == key x)) xs
        have h2 : xs.length + 1 = n := by simpa using hn
        omega
      have hIH := IH _ hlen (xs.filter (fun a => !(key a == key x))) rfl
      rw [hdedup, List.map_cons, listSumPF_cons, mapCongrMem hgroups, hIH, hfilterx]
      simp only [List.map_cons, listSumPF_cons]
      rw [sumPF_split (fun a => key a == key x) f xs, addPF_assoc]

/-! ### The pricing loop computes first-full, rest-half -/

theorem precoPorte_nil (lc : CbhpmRow) : precoPorte [] lc = PyFloat.finite 0 := by
  simp only [precoPorte, lookupA]
  split <;> rfl

theorem precoEntry_nil (mb : MapaCbhpm) (proc : List Char) :
    precoEntry mb [] proc = PyFloat.finite 0 := by
  unfold precoEntry
  cases h : lookupA mb (procCodigo proc)
  · simp [h]
  · simp [h, precoPorte_nil]

theorem loopProcs_tail (mb : MapaCbhpm) (linha : ConvRow) :
    ∀ (procs : List (List Char)) (i : Nat) (acc : PyFloat), i ≠ 0 →
      loopProcs mb linha i procs acc =
        addPF acc (listSumPF (procs.map
          (fun e => mulPF (precoEntry mb linha e) (PyFloat.finite (1 / 2))))) := by
  intro procs
  induction procs with
  | nil =>
    intro i acc hi
    simp [loopProcs, listSumPF_nil, addPF_zero_right]
  | cons e rest ih =>
    intro i acc hi
    cases hl : lookupA mb (procCodigo e) with
    | none =>
      simp only [loopProcs, hl]
      rw [ih _ _ (Nat.succ_ne_zero i)]
      have hpe : precoEntry mb linha e = PyFloat.finite 0 := by simp [precoEntry, hl]
      simp only [List.map_cons, listSumPF_cons, hpe, mulPF, zero_mul, addPF_zero_left]
    | some lc =>
      simp only [loopProcs, hl, if_neg hi]
      rw [ih _ _ (Nat.succ_ne_zero i)]
      have hpe : precoEntry mb linha e = precoPorte linha lc := by simp [precoEntry, hl]
      simp only [List.map_cons, listSumPF_cons, hpe]
      rw [addPF_assoc]

theorem calcular_formula (mc : MapaConvenios) (mb : MapaCbhpm) (row : Cirurgia)
    (linha : ConvRow) (e0 : List Char) (rest : List (List Char))
    (h1 : pyStrip row.convenio ≠ [])
    (h2 : pyStrip row.procedimento ≠ [])
    (h3 : pyStrip row.procedimento ≠ ['n', 'a', 'n'])
    (h4 : lookupA mc (pyStrip row.convenio) = some linha)
    (h5 : splitOnPred (fun c => c == '\n') (pyStrip row.procedimento) = e0 :: rest) :
    calcular_faturamento_memoria mc mb row =
      addPF (precoEntry mb linha e0)
        (mulPF (listSumPF (rest.map (precoEntry mb linha))) (PyFloat.finite (1 / 2))) := by
  have hguard : ¬(pyStrip row.convenio = [] ∨ pyStrip row.procedimento = [] ∨
      pyStrip row.procedimento = ['n', 'a', 'n']) := by
    push_neg
    exact ⟨h1, h2, h3⟩
  by_cases hl : linha = []
  · subst hl
    simp only [calcular_faturamento_memoria, if_neg hguard, h4, if_pos rfl]
    rw [precoEntry_nil, listSumPF_all_zero _ _ (fun a _ => precoEntry_nil mb a)]
    simp [mulPF, addPF]
  · simp only [calcular_faturamento_memoria, if_neg hguard, h4, if_neg hl, h5]
    cases he : lookupA mb (procCodigo e0) with
    | none =>
      simp only [loopProcs, he]
      rw [loopProcs_tail mb linha rest 1 (PyFloat.finite 0) one_ne_zero, addPF_zero_left,
        sum_map_mulPF (by norm_num : (0 : ℚ) < 1 / 2)]
      have hpe : precoEntry mb linha e0 = PyFloat.finite 0 := by simp [precoEntry, he]
      rw [hpe, addPF_zero_left]
    | some lc =>
      simp only [loopProcs, he, if_pos rfl]
      rw [loopProcs_tail mb linha rest 1 _ one_ne_zero, addPF_zero_left,
        sum_map_mulPF (by norm_num : (0 : ℚ) < 1 / 2)]
      have hpe : precoEntry mb linha e0 = precoPorte linha lc := by simp [precoEntry, he]
      rw [hpe]
      simp

/-! ### Character and parsing facts feeding the currency-parser claims -/

set_option exponentiation.threshold 1100 in
theorem ovThreshold_eq : ovThreshold = 2 ^ 1024 - 2 ^ 970 := by
  unfold ovThreshold
  norm_num

theorem ovThreshold_pos : 0 < ovThreshold := by
  unfold ovThreshold
  norm_num

theorem ne_of_isDigit {c x : Char} (hc : c.isDigit = true) (hx : x.isDigit = false) :
    c ≠ x := by
  intro h
  rw [h, hx] at hc
  simp at hc

theorem isSpace_digit_dot {c : Char} (h : c.isDigit = true ∨ c = '.') :
    isSpace c = false := by
  rcases h with hd | rfl
  · simp only [isSpace, Char.isWhitespace]
    have h1 := ne_of_isDigit hd (by decide : (' ').isDigit = false)
    have h2 := ne_of_isDigit hd (by decide : ('\t').isDigit = false)
    have h3 := ne_of_isDigit hd (by decide : ('\r').isDigit = false)
    have h4 := ne_of_isDigit hd (by decide : ('\n').isDigit = false)
    simp [h1, h2, h3, h4]
  · decide

theorem toLower_of_digit {c : Char} (hc : c.isDigit = true) : Char.toLower c = c := by
  have h57 : Char.toNat c ≤ 57 := by
    simp only [Char.isDigit, Bool.and_eq_true, decide_eq_true_eq] at hc
    exact UInt32.toNat_le_of_le (by norm_num) hc.2
  simp only [Char.toLower]
  rw [if_neg (by omega)]

theorem dropWhile_all_false {p : Char → Bool} :
    ∀ {l : List Char}, (∀ c ∈ l, p c = false) → l.dropWhile p = l := by
  intro l
  induction l with
  | nil => intro _; rfl
  | cons c cs _ =>
    intro h
    rw [List.dropWhile_cons, h c (List.mem_cons_self c cs)]
    simp

theorem pyStrip_id {l : List Char} (h : ∀ c ∈ l, isSpace c = false) : pyStrip l = l := by
  unfold pyStrip
  rw [dropWhile_all_false h,
    dropWhile_all_false (fun c hc => h c (List.mem_reverse.mp hc)), List.reverse_reverse]

theorem filter_all_true {α : Type} {p : α → Bool} :
    ∀ {l : List α}, (∀ a ∈ l, p a = true) → l.filter p = l := by
  intro l
  induction l with
  | nil => intro _; rfl
  | cons c cs ih =>
    intro h
    rw [List.filter_cons, if_pos (h c (List.mem_cons_self c cs)),
      ih (fun a ha => h a (List.mem_cons_of_mem c ha))]

theorem replaceSubFuel_id {p0 : Char} {ps repl : List Char} :
    ∀ (fuel : Nat) {l : List Char}, (∀ c ∈ l, c ≠ p0) →
      replaceSubFuel p0 ps repl fuel l = l := by
  intro fuel
  induction fuel with
  | zero => intro l _; cases l <;> rfl
  | succ f ih =>
    intro l h
    cases l with
    | nil => rfl
    | cons c cs =>
      have hc : (p0 == c) = false := by
        rw [beq_eq_false_iff_ne]
        exact fun hh => (h c (List.mem_cons_self c cs)) hh.symm
      simp only [replaceSubFuel, listStartsWith, hc, Bool.false_and, Bool.false_eq_true,
        if_false]
      rw [ih (fun a ha => h a (List.mem_cons_of_mem c ha))]

theorem replaceSub_id {p0 : Char} {ps repl : List Char} {l : List Char}
    (h : ∀ c ∈ l, c ≠ p0) : replaceSub p0 ps repl l = l :=
  replaceSubFuel_id l.length h

theorem replaceSubFuel_singleton (c0 : Char) :
    ∀ (fuel : Nat) (l : List Char), l.length ≤ fuel →
      replaceSubFuel c0 [] [] fuel l = l.filter (fun c => !(c == c0)) := by
  intro fuel
  induction fuel with
  | zero =>
    intro l h
    have : l = [] := List.length_eq_zero.mp (Nat.le_zero.mp h)
    subst this
    rfl
  | succ f ih =>
    intro l h
    cases l with
    | nil => rfl
    | cons c cs =>
      have hcs : cs.length ≤ f := by
        simp only [List.length_cons] at h
        omega
      by_cases hc : c = c0
      · subst hc
        simp only [replaceSubFuel, listStartsWith, beq_self_eq_true, Bool.and_true, if_pos,
          List.drop_zero, List.nil_append, List.filter_cons, Bool.not_true, Bool.false_eq_true,
          if_false]
        exact ih cs hcs
      · have hb : (c0 == c) = false := by
          rw [beq_eq_false_iff_ne]
          exact fun hh => hc hh.symm
        have hb2 : (c == c0) = false := by
          rw [beq_eq_false_iff_ne]
          exact hc
        simp only [replaceSubFuel, listStartsWith, hb, Bool.false_and, Bool.false_eq_true,
          if_false, List.filter_cons, hb2, Bool.not_false, if_true]
        rw [ih cs hcs]

theorem replaceSub_singleton (c0 : Char) :
    ∀ l : List Char, replaceSub c0 [] [] l = l.filter (fun c => !(c == c0)) :=
  fun l => replaceSubFuel_singleton c0 l.length l (Nat.le_refl _)

theorem splitOnPred_no_sep {p : Char → Bool} :
    ∀ {l : List Char}, (∀ c ∈ l, p c = false) → splitOnPred p l = [l] := by
  intro l
  induction l with
  | nil => intro _; rfl
  | cons c cs ih =>
    intro h
    rw [splitOnPred, ih (fun a ha => h a (List.mem_cons_of_mem c ha))]
    simp [h c (List.mem_cons_self c cs)]

theorem uTail_digits : ∀ {l : List Char}, (∀ c ∈ l, c.isDigit = true) → uTail l = true := by
  intro l
  induction l with
  | nil => intro _; rfl
  | cons c cs ih =>
    intro h
    have hd := h c (List.mem_cons_self c cs)
    have hne : ¬(c = '_') := ne_of_isDigit hd (by decide : ('_').isDigit = false)
    rw [uTail.eq_def]
    simp only [if_neg hne, hd, Bool.true_and]
    exact ih (fun a ha => h a (List.mem_cons_of_mem c ha))

theorem filterCongrMem {α : Type} {p q : α → Bool} :
    ∀ {l : List α}, (∀ a ∈ l, p a = q a) → l.filter p = l.filter q := by
  intro l
  induction l with
  | nil => intro _; rfl
  | cons c cs ih =>
    intro h
    rw [List.filter_cons, List.filter_cons, h c (List.mem_cons_self c cs),
      ih (fun a ha => h a (List.mem_cons_of_mem c ha))]

theorem map_toLower_digits :
    ∀ {l : List Char}, (∀ c ∈ l, c.isDigit = true) → l.map Char.toLower = l := by
  intro l
  induction l with
  | nil => intro _; rfl
  | cons c cs ih =>
    intro h
    rw [List.map_cons, toLower_of_digit (h c (List.mem_cons_self c cs)),
      ih (fun a ha => h a (List.mem_cons_of_mem c ha))]

theorem lowerEqList_digits_ne {l lit : List Char} (h : ∀ c ∈ l, c.isDigit = true)
    (hlit : l ≠ lit) : lowerEqList l lit = false := by
  unfold lowerEqList
  rw [map_toLower_digits h, beq_eq_false_iff_ne]
  exact hlit

theorem pyfloat_digits {l : List Char} (hne : l ≠ []) (h : ∀ c ∈ l, c.isDigit = true)
    (hb : (digitsVal l : ℚ) < ovThreshold) :
    pyfloat l = some (PyFloat.finite ((digitsVal l : ℚ))) := by
  have hstrip : pyStrip l = l :=
    pyStrip_id (fun c hc => isSpace_digit_dot (Or.inl (h c hc)))
  obtain ⟨c, cs, rfl⟩ : ∃ c cs, l = c :: cs := by
    cases l with
    | nil => exact absurd rfl hne
    | cons c cs => exact ⟨c, cs, rfl⟩
  have hd := h c (List.mem_cons_self c cs)
  have hplus : ¬(c = '+') := ne_of_isDigit hd (by decide)
  have hminus : ¬(c = '-') := ne_of_isDigit hd (by decide)
  have hinf : lowerEqList (c :: cs) ['i', 'n', 'f'] = false := by
    apply lowerEqList_digits_ne h
    intro he
    have hi := h 'i' (by rw [he]; exact List.mem_cons_self _ _)
    exact absurd hi (by decide)
  have hinfy : lowerEqList (c :: cs) ['i', 'n', 'f', 'i', 'n', 'i', 't', 'y'] = false := by
    apply lowerEqList_digits_ne h
    intro he
    have hi := h 'i' (by rw [he]; exact List.mem_cons_self _ _)
    exact absurd hi (by decide)
  have hnan : lowerEqList (c :: cs) ['n', 'a', 'n'] = false := by
    apply lowerEqList_digits_ne h
    intro he
    have hi := h 'n' (by rw [he]; exact List.mem_cons_self _ _)
    exact absurd hi (by decide)
  have hnoe : ∀ x ∈ (c :: cs), (x == 'e' || x == 'E') = false := by
    intro x hx
    have h1 : ¬(x = 'e') := ne_of_isDigit (h x hx) (by decide)
    have h2 : ¬(x = 'E') := ne_of_isDigit (h x hx) (by decide)
    simp [h1, h2]
  have hnodot : ∀ x ∈ (c :: cs), (x == '.') = false := by
    intro x hx
    have h1 : ¬(x = '.') := ne_of_isDigit (h x hx) (by decide)
    simp [h1]
  have hur : uRun (c :: cs) = true := by
    rw [uRun, hd, uTail_digits (fun a ha => h a (List.mem_cons_of_mem c ha))]
    rfl
  have hsu : stripU (c :: cs) = c :: cs := by
    apply filter_all_true
    intro a ha
    have h1 : ¬(a = '_') := ne_of_isDigit (h a ha) (by decide)
    simp [h1]
  have hdec : decimalVal (c :: cs) = some ((digitsVal (c :: cs) : ℚ)) := by
    simp only [decimalVal, splitOnPred_no_sep hnoe, mantissaVal, splitOnPred_no_sep hnodot,
      if_pos hur, hsu]
  rw [pyfloat.eq_def, hstrip]
  simp only [if_neg hplus, if_neg hminus]
  rw [pyfloatBody, if_neg (by rw [hinf, hinfy]; simp), if_neg (by rw [hnan]; simp), hdec]
  have hbge : ¬(ovThreshold ≤ (digitsVal (c :: cs) : ℚ)) := not_le.mpr hb
  have hble : ¬((digitsVal (c :: cs) : ℚ) ≤ -ovThreshold) := by
    have h0 : (0 : ℚ) ≤ (digitsVal (c :: cs) : ℚ) := Nat.cast_nonneg _
    have hpos : (0 : ℚ) < ovThreshold := ovThreshold_pos
    linarith
  simp [hbge, hble]

theorem limpar_digits_dots {s : List Char} (h : ∀ c ∈ s, c.isDigit = true ∨ c = '.')
    (hb : (digitsVal (s.filter (fun c => c.isDigit)) : ℚ) < ovThreshold) :
    limpar_moeda (some s) =
      PyFloat.finite ((digitsVal (s.filter (fun c => c.isDigit)) : ℚ)) := by
  have hstrip : pyStrip s = s := pyStrip_id (fun c hc => isSpace_digit_dot (h c hc))
  have hR : replaceSub 'R' ['$'] [] s = s := by
    apply replaceSub_id
    intro c hc
    rcases h c hc with hd | rfl
    · exact ne_of_isDigit hd (by decide)
    · decide
  have hdotrep : replaceSub '.' [] [] s = s.filter (fun c => !(c == '.')) :=
    replaceSub_singleton '.' s
  have htdig : ∀ c ∈ s.filter (fun c => !(c == '.')), c.isDigit = true := by
    intro c hc
    have hmem := List.mem_filter.mp hc
    rcases h c hmem.1 with hd | rfl
    · exact hd
    · simpa using hmem.2
  have hcomma : replaceSub ',' [] ['.'] (s.filter (fun c => !(c == '.'))) =
      s.filter (fun c => !(c == '.')) := by
    apply replaceSub_id
    intro c hc
    exact ne_of_isDigit (htdig c hc) (by decide)
  have hclean : limparClean s = s.filter (fun c => !(c == '.')) := by
    rw [limparClean, hR, hdotrep, hcomma,
      pyStrip_id (fun c hc => isSpace_digit_dot (Or.inl (htdig c hc)))]
  have hfil : s.filter (fun c => c.isDigit) =
      (s.filter (fun c => !(c == '.'))).filter (fun c => c.isDigit) := by
    rw [List.filter_filter]
    apply filterCongrMem
    intro a ha
    rcases h a ha with hd | rfl
    · have : (a == '.') = false := by
        rw [beq_eq_false_iff_ne]
        exact ne_of_isDigit hd (by decide)
      simp [this, hd]
    · decide
  by_cases hsent : pyStrip s = ['-'] ∨ pyStrip s = [] ∨ pyStrip s = ['0']
  · rw [hstrip] at hsent
    rcases hsent with h1 | h1 | h1
    · exfalso
      rcases h '-' (by rw [h1]; exact List.mem_cons_self _ _) with hd | hd
      · exact absurd hd (by decide)
      · exact absurd hd (by decide)
    · rw [h1]
      decide
    · rw [h1]
      decide
  · simp only [limpar_moeda, if_neg hsent, hclean]
    by_cases htnil : s.filter (fun c => !(c == '.')) = []
    · rw [htnil, hfil, htnil]
      decide
    · have ht2 : (s.filter (fun c => !(c == '.'))).filter (fun c => c.isDigit) =
          s.filter (fun c => !(c == '.')) := filter_all_true htdig
      have hbt : (digitsVal (s.filter (fun c => !(c == '.'))) : ℚ) < ovThreshold := by
        rw [hfil, ht2] at hb
        exact hb
      rw [pyfloat_digits htnil htdig hbt, hfil, ht2]

/-! ### Derived-column and aggregation facts -/

theorem deriveRow_rshora_none_iff (mapa_convenios : MapaConvenios) (mapa_cbhpm : MapaCbhpm)
    (r : Cirurgia) :
    (deriveRow mapa_convenios mapa_cbhpm r).rshora = none ↔
      ((deriveRow mapa_convenios mapa_cbhpm r).horas = none ∨
        ∃ h, (deriveRow mapa_convenios mapa_cbhpm r).horas = some h ∧ h ≤ 0) := by
  simp only [deriveRow]
  cases hc : converter_para_horas r.duracao with
  | none => simp
  | some hq =>
    by_cases hpos : 0 < hq
    · simp [if_pos hpos, (not_le.mpr hpos : ¬hq ≤ 0)]
    · simp [if_neg hpos, (not_lt.mp hpos : hq ≤ 0)]

theorem deriveRow_rshora_pos (mapa_convenios : MapaConvenios) (mapa_cbhpm : MapaCbhpm)
    (r : Cirurgia) (h : ℚ) (hh : (deriveRow mapa_convenios mapa_cbhpm r).horas = some h)
    (hpos : 0 < h) :
    (deriveRow mapa_convenios mapa_cbhpm r).rshora =
      some (divPF (deriveRow mapa_convenios mapa_cbhpm r).valor (PyFloat.finite h)) := by
  simp only [deriveRow] at hh ⊢
  simp [hh, if_pos hpos]

theorem valid_horas_pos (mapa_convenios : MapaConvenios) (mapa_cbhpm : MapaCbhpm)
    (rows : List Cirurgia) :
    ∀ d ∈ df_validos mapa_convenios mapa_cbhpm rows, ∃ h, d.horas = some h ∧ 0 < h := by
  intro d hd
  have hmem := List.mem_filter.mp hd
  obtain ⟨r, _, rfl⟩ := List.mem_map.mp hmem.1
  have hna : isNA (deriveRow mapa_convenios mapa_cbhpm r).rshora = false := by
    simpa using hmem.2
  simp only [deriveRow] at hna ⊢
  cases hc : converter_para_horas r.duracao with
  | none =>
    rw [hc] at hna
    simp [isNA] at hna
  | some hq =>
    rw [hc] at hna
    by_cases hpos : 0 < hq
    · exact ⟨hq, rfl, hpos⟩
    · exfalso
      simp [if_neg hpos, isNA] at hna

theorem grupo_sub_validos (mapa_convenios : MapaConvenios) (mapa_cbhpm : MapaCbhpm)
    (rows : List Cirurgia) (k : List Char) :
    ∀ d ∈ grupo mapa_convenios mapa_cbhpm rows k, d ∈ df_validos mapa_convenios mapa_cbhpm rows :=
  fun _ hd => (List.mem_filter.mp hd).1

theorem resumo_horas_pos (mapa_convenios : MapaConvenios) (mapa_cbhpm : MapaCbhpm)
    (rows : List Cirurgia) :
    ∀ k ∈ convKeys mapa_convenios mapa_cbhpm rows,
      0 < resumo_horas mapa_convenios mapa_cbhpm rows k := by
  intro k hk
  have hkmem : k ∈ (df_validos mapa_convenios mapa_cbhpm rows).map (fun d => d.conv) :=
    mem_dedupF hk
  obtain ⟨d, hd, hdk⟩ := List.mem_map.mp hkmem
  have hdg : d ∈ grupo mapa_convenios mapa_cbhpm rows k :=
    List.mem_filter.mpr ⟨hd, by simp [hdk]⟩
  unfold resumo_horas
  apply List.sum_pos
  · intro x hx
    obtain ⟨d2, hd2, rfl⟩ := List.mem_map.mp hx
    obtain ⟨h, hh, hpos⟩ :=
      valid_horas_pos mapa_convenios mapa_cbhpm rows d2
        (grupo_sub_validos mapa_convenios mapa_cbhpm rows k d2 hd2)
    rw [hh]
    exact hpos
  · intro hemp
    rw [List.map_eq_nil_iff] at hemp
    rw [hemp] at hdg
    exact absurd hdg (List.not_mem_nil d)

theorem valid_valor_ne_nan (mapa_convenios : MapaConvenios) (mapa_cbhpm : MapaCbhpm)
    (rows : List Cirurgia) :
    ∀ d ∈ df_validos mapa_convenios mapa_cbhpm rows, d.valor ≠ PyFloat.nan := by
  intro d hd heq
  have hmem := List.mem_filter.mp hd
  obtain ⟨h, hh, hpos⟩ := valid_horas_pos mapa_convenios mapa_cbhpm rows d hd
  obtain ⟨r, _, rfl⟩ := List.mem_map.mp hmem.1
  have hr := deriveRow_rshora_pos mapa_convenios mapa_cbhpm r h hh hpos
  have hna : isNA (deriveRow mapa_convenios mapa_cbhpm r).rshora = false := by
    simpa using hmem.2
  rw [hr, heq] at hna
  simp [divPF, isNA] at hna

theorem resumo_valor_eq_listSum (mapa_convenios : MapaConvenios) (mapa_cbhpm : MapaCbhpm)
    (rows : List Cirurgia) (k : List Char) :
    resumo_valor mapa_convenios mapa_cbhpm rows k =
      listSumPF ((grupo mapa_convenios mapa_cbhpm rows k).map (fun d => d.valor)) := by
  unfold resumo_valor pdSumPF
  congr 1
  apply filter_all_true
  intro x hx
  obtain ⟨d, hd, rfl⟩ := List.mem_map.mp hx
  have hnn := valid_valor_ne_nan mapa_convenios mapa_cbhpm rows d
    (grupo_sub_validos mapa_convenios mapa_cbhpm rows k d hd)
  simp [hnn]

theorem filterComm {α : Type} (p q : α → Bool) (l : List α) :
    (l.filter p).filter q = (l.filter q).filter p := by
  rw [List.filter_filter, List.filter_filter]
  apply filterCongrMem
  intro a _
  exact Bool.and_comm _ _

theorem faturamento_split (mapa_convenios : MapaConvenios) (mapa_cbhpm : MapaCbhpm)
    (rows : List Cirurgia) :
    faturamento_total mapa_convenios mapa_cbhpm rows =
      addPF (listSumPF ((df_validos mapa_convenios mapa_cbhpm rows).map (fun d => d.valor)))
        (listSumPF ((((derive mapa_convenios mapa_cbhpm rows).filter
          (fun d => isNA d.rshora)).map (fun d => d.valor)).filter
            (fun x => !(x == PyFloat.nan)))) := by
  have hmapinv : ((((derive mapa_convenios mapa_cbhpm rows).filter
      (fun d => isNA d.rshora)).map (fun d => d.valor)).filter
        (fun x => !(x == PyFloat.nan))) =
      (((derive mapa_convenios mapa_cbhpm rows).filter (fun d => isNA d.rshora)).filter
        (fun a => !(a.valor == PyFloat.nan))).map (fun d => d.valor) :=
    filterMapComm _ _ _
  rw [hmapinv]
  unfold faturamento_total pdSumPF df_validos
  rw [filterMapComm (fun d : Derived => d.valor) (fun x => !(x == PyFloat.nan))
    (derive mapa_convenios mapa_cbhpm rows)]
  rw [sumPF_split (fun d => !(isNA d.rshora)) (fun d : Derived => d.valor)
    ((derive mapa_convenios mapa_cbhpm rows).filter (fun a => !(a.valor == PyFloat.nan)))]
  have hA : ((derive mapa_convenios mapa_cbhpm rows).filter
      (fun a => !(a.valor == PyFloat.nan))).filter (fun d => !(isNA d.rshora)) =
      (derive mapa_convenios mapa_cbhpm rows).filter (fun d => !(isNA d.rshora)) := by
    rw [filterComm]
    apply filter_all_true
    intro d hd
    have hnn := valid_valor_ne_nan mapa_convenios mapa_cbhpm rows d hd
    simp [beq_eq_false_iff_ne.mpr hnn]
  have hB : ((derive mapa_convenios mapa_cbhpm rows).filter
      (fun a => !(a.valor == PyFloat.nan))).filter (fun a => !(!(isNA a.rshora))) =
      ((derive mapa_convenios mapa_cbhpm rows).filter (fun d => isNA d.rshora)).filter
        (fun a => !(a.valor == PyFloat.nan)) := by
    have h1 : ((derive mapa_convenios mapa_cbhpm rows).filter
        (fun a => !(a.valor == PyFloat.nan))).filter (fun a => !(!(isNA a.rshora))) =
        ((derive mapa_convenios mapa_cbhpm rows).filter
          (fun a => !(a.valor == PyFloat.nan))).filter (fun d => isNA d.rshora) :=
      filterCongrMem (fun a _ => Bool.not_not _)
    rw [h1, filterComm]
  rw [hA, hB]

theorem sharesSum_formula (mapa_convenios : MapaConvenios) (mapa_cbhpm : MapaCbhpm)
    (rows : List Cirurgia)
    (hgt : gtPF (faturamento_total mapa_convenios mapa_cbhpm rows) (PyFloat.finite 0) = true) :
    sharesSum mapa_convenios mapa_cbhpm rows =
      mulPF
        (divPF (listSumPF ((df_validos mapa_convenios mapa_cbhpm rows).map (fun d => d.valor)))
          (faturamento_total mapa_convenios mapa_cbhpm rows))
        (PyFloat.finite 100) := by
  unfold sharesSum
  have hpct : ∀ k ∈ convKeys mapa_convenios mapa_cbhpm rows,
      pct_faturamento mapa_convenios mapa_cbhpm rows k =
        mulPF
          (divPF (resumo_valor mapa_convenios mapa_cbhpm rows k)
            (faturamento_total mapa_convenios mapa_cbhpm rows))
          (PyFloat.finite 100) := by
    intro k _
    rw [pct_faturamento, if_pos hgt]
  rw [mapCongrMem hpct, sum_map_mulPF (by norm_num : (0 : ℚ) < 100), sum_map_divPF hgt]
  have hrv : ∀ k ∈ convKeys mapa_convenios mapa_cbhpm rows,
      resumo_valor mapa_convenios mapa_cbhpm rows k =
        listSumPF ((grupo mapa_convenios mapa_cbhpm rows k).map (fun d => d.valor)) :=
    fun k _ => resumo_valor_eq_listSum mapa_convenios mapa_cbhpm rows k
  rw [mapCongrMem hrv]
  have hpart := sumPF_groups (fun d : Derived => d.conv) (fun d : Derived => d.valor)
    (df_validos mapa_convenios mapa_cbhpm rows)
  unfold grupo
  unfold convKeys
  rw [hpart]

/-! ### Concrete inputs used by witnesses and counterexamples -/

/-- Agreement `X` priced AN1=100, AN2=50, AN3=20 (the spec's discount scenario). -/
def mcSpec : MapaConvenios :=
  [(['X'], [(['A', 'N', '1'], some ['1', '0', '0']), (['A', 'N', '2'], some ['5', '0']),
    (['A', 'N', '3'], some ['2', '0'])])]

/-- The fee row of agreement `X` in `mcSpec`. -/
def linhaSpec : ConvRow :=
  [(['A', 'N', '1'], some ['1', '0', '0']), (['A', 'N', '2'], some ['5', '0']),
    (['A', 'N', '3'], some ['2', '0'])]

/-- Procedure codes `P1`, `P2`, `P3` with size classes 1, 2, 3. -/
def mbSpec : MapaCbhpm :=
  [(['P', '1'], [(porteCol, ['1'])]), (['P', '2'], [(porteCol, ['2'])]),
    (['P', '3'], [(porteCol, ['3'])])]

/-- A surgery with three procedures under agreement `X`. -/
def rowSpec : Cirurgia := ⟨['X'], ['P', '1', '\n', 'P', '2', '\n', 'P', '3'], ['1', ':', '0', '0']⟩

/-- Agreement `X` priced AN1=100, AN2=200 (the spec's end-to-end scenario). -/
def mcEnd : MapaConvenios :=
  [(['X'], [(['A', 'N', '1'], some ['1', '0', '0']), (['A', 'N', '2'], some ['2', '0', '0'])])]

/-- The fee row of agreement `X` in `mcEnd`. -/
def linhaEnd : ConvRow :=
  [(['A', 'N', '1'], some ['1', '0', '0']), (['A', 'N', '2'], some ['2', '0', '0'])]

/-- Procedure codes `P1`, `P2` with size classes 1, 2. -/
def mbEnd : MapaCbhpm := [(['P', '1'], [(porteCol, ['1'])]), (['P', '2'], [(porteCol, ['2'])])]

/-- The spec's two end-to-end surgeries: values 200 and 200, hours 1 and 2. -/
def rowsEnd : List Cirurgia :=
  [⟨['X'], ['P', '1', '\n', 'P', '2'], ['1', ':', '0', '0']⟩,
    ⟨['X'], ['P', '2'], ['2', ':', '0', '0']⟩]

/-- Two surgeries of value 100 each under agreement `A`; the second has no
duration, so only the first reaches the per-agreement summary. -/
def rowsCtr : List Cirurgia :=
  [⟨['A'], ['P', '1'], ['1', ':', '0', '0']⟩, ⟨['A'], ['P', '1'], []⟩]

/-- Agreement `A` priced AN1=100. -/
def mcCtr : MapaConvenios := [(['A'], [(['A', 'N', '1'], some ['1', '0', '0'])])]

/-- Procedure code `P1` with size class 1. -/
def mbCtr : MapaCbhpm := [(['P', '1'], [(porteCol, ['1'])])]

/-- A fee table whose only agreement has the empty string as its name
(an empty `Convênio` cell produces exactly this key). -/
def mcEmptyName : MapaConvenios := [([], [(['A', 'N', '1'], some ['1', '0', '0'])])]

/-- The fee row of the empty-named agreement. -/
def linhaEmptyName : ConvRow := [(['A', 'N', '1'], some ['1', '0', '0'])]

/-- Procedure code `7` with size class 1. -/
def mbSeven : MapaCbhpm := [(['7'], [(porteCol, ['1'])])]

/-- A surgery with empty agreement cell and one priced procedure. -/
def rowEmptyName : Cirurgia := ⟨[], ['7'], []⟩

/-- A surgery with empty agreement cell, an unknown first code and a priced
second procedure. -/
def rowEmptyName2 : Cirurgia := ⟨[], ['Z', 'Z', '\n', '7'], []⟩

/-- A surgery under `mcEnd` whose first entry has an unknown code. -/
def rowC4w : Cirurgia := ⟨['X'], ['Z', 'Z', '\n', 'P', '2'], []⟩

/-- Agreement `A` whose AN1 cell holds the literal text `nan` (so its
surgeries are billed NaN), and agreement `B` priced AN1=100. -/
def mcNaN : MapaConvenios :=
  [(['A'], [(['A', 'N', '1'], some ['n', 'a', 'n'])]),
    (['B'], [(['A', 'N', '1'], some ['1', '0', '0'])])]

/-- A surgery under `A` (NaN billed value) with no duration. -/
def rowNaN : Cirurgia := ⟨['A'], ['P', '1'], []⟩

/-- A surgery under `B` worth 100 with one hour. -/
def rowGoodB : Cirurgia := ⟨['B'], ['P', '1'], ['1', ':', '0', '0']⟩

/-- A 309-digit string of nines; its value is beyond the binary64 overflow
bound, so Python `float()` returns `inf` for it. -/
def nines309 : List Char := List.replicate 309 '9'

/-- The digit string `1` followed by 309 zeros (the value 10^309), likewise
beyond the overflow bound. -/
def one_e309 : List Char := '1' :: List.replicate 309 '0'

/-! ### The claims -/

/-- C1, counterexample: the claim quantifies over every surgery whose trimmed
agreement name is found in the agreement table, but the guard on line 92
(`if not convenio ...`) returns `0.0` when the trimmed name is the empty
string even when the empty string is a key of the table, so the billed value
(0) differs from the claimed `p(e0) + 0.5*(p(e1) + ...)` (here 100). -/
theorem C1_counterexample :
    pyStrip rowEmptyName.convenio = [] ∧
    lookupA mcEmptyName (pyStrip rowEmptyName.convenio) = some linhaEmptyName ∧
    splitOnPred (fun c => c == '\n') (pyStrip rowEmptyName.procedimento) = [['7']] ∧
    calcular_faturamento_memoria mcEmptyName mbSeven rowEmptyName = PyFloat.finite 0 ∧
    addPF (precoEntry mbSeven linhaEmptyName ['7'])
      (mulPF (listSumPF (([] : List (List Char)).map (precoEntry mbSeven linhaEmptyName)))
        (PyFloat.finite (1 / 2))) = PyFloat.finite 100 ∧
    (PyFloat.finite 0 : PyFloat) ≠ PyFloat.finite 100 := by
  decide

/-- C1 (amended): for every surgery record whose trimmed agreement name is
nonempty and found in the agreement table, and whose trimmed procedure-list
text is neither empty nor the literal `nan` and splits on newlines into
entries `e0 :: rest`, the billed value returned by
`calcular_faturamento_memoria` equals `p(e0) + (p(e1) + p(e2) + ...) * 0.5`,
where `p` is the entry's fee-schedule price (0.0 when its code, size class,
or `AN` column fails to resolve); in particular three procedures priced
[100, 50, 20] yield 135.0 (see the witness). -/
theorem C1_amended : ∀ (mapa_convenios : MapaConvenios) (mapa_cbhpm : MapaCbhpm)
    (row : Cirurgia) (linha_convenio : ConvRow) (e0 : List Char) (rest : List (List Char)),
    pyStrip row.convenio ≠ [] →
    pyStrip row.procedimento ≠ [] →
    pyStrip row.procedimento ≠ ['n', 'a', 'n'] →
    lookupA mapa_convenios (pyStrip row.convenio) = some linha_convenio →
    splitOnPred (fun c => c == '\n') (pyStrip row.procedimento) = e0 :: rest →
    calcular_faturamento_memoria mapa_convenios mapa_cbhpm row =
      addPF (precoEntry mapa_cbhpm linha_convenio e0)
        (mulPF (listSumPF (rest.map (precoEntry mapa_cbhpm linha_convenio)))
          (PyFloat.finite (1 / 2))) :=
  fun mapa_convenios mapa_cbhpm row linha_convenio e0 rest h1 h2 h3 h4 h5 =>
    calcular_formula mapa_convenios mapa_cbhpm row linha_convenio e0 rest h1 h2 h3 h4 h5

/-- C1, witness: the spec's [100, 50, 20] scenario totals 135. -/
theorem C1_witness :
    calcular_faturamento_memoria mcSpec mbSpec rowSpec = PyFloat.finite 135 := by
  have h := C1_amended mcSpec mbSpec rowSpec linhaSpec ['P', '1'] [['P', '2'], ['P', '3']]
    (by decide) (by decide) (by decide) (by decide) (by decide)
  rw [h]
  decide

/-- C2, counterexample: the revenue shares are computed against
`faturamento_total`, which sums over all surgeries, while the summary groups
only the surgeries with a valid `R$/Hora`; with one valid and one invalid
surgery of 100 each, the grand total is positive yet the shares sum to 50%,
not 100%. -/
theorem C2_counterexample :
    gtPF (faturamento_total mcCtr mbCtr rowsCtr) (PyFloat.finite 0) = true ∧
    sharesSum mcCtr mbCtr rowsCtr = PyFloat.finite 50 ∧
    (PyFloat.finite 50 : PyFloat) ≠ PyFloat.finite 100 := by
  decide

/-- C2 (amended): when the grand total billed value is `> 0`, the
`% Faturamento` shares over all agreements in the summary sum to
`(valid total / grand total) * 100`, where the valid total sums only the
surgeries with a present, non-NaN revenue-per-hour — this equals 100% exactly
when all billed value lies on such surgeries; when the grand total is 0,
every agreement's share is 0 rather than a division error. -/
theorem C2_amended : ∀ (mapa_convenios : MapaConvenios) (mapa_cbhpm : MapaCbhpm)
    (rows : List Cirurgia),
    (gtPF (faturamento_total mapa_convenios mapa_cbhpm rows) (PyFloat.finite 0) = true →
      sharesSum mapa_convenios mapa_cbhpm rows =
        mulPF
          (divPF (listSumPF ((df_validos mapa_convenios mapa_cbhpm rows).map (fun d => d.valor)))
            (faturamento_total mapa_convenios mapa_cbhpm rows))
          (PyFloat.finite 100))
    ∧ (faturamento_total mapa_convenios mapa_cbhpm rows = PyFloat.finite 0 →
        ∀ k : List Char, pct_faturamento mapa_convenios mapa_cbhpm rows k = PyFloat.finite 0) := by
  intro mapa_convenios mapa_cbhpm rows
  constructor
  · exact sharesSum_formula mapa_convenios mapa_cbhpm rows
  · intro hz k
    rw [pct_faturamento, hz, if_neg (by decide)]

/-- C2, witness: in the spec's end-to-end scenario all value is on valid
surgeries, so the shares sum to exactly 100%. -/
theorem C2_witness : sharesSum mcEnd mbEnd rowsEnd = PyFloat.finite 100 := by
  have h := (C2_amended mcEnd mbEnd rowsEnd).1 (by decide)
  rw [h]
  decide

/-- C4, counterexample: under the empty-named (but present) agreement the
guard of line 92 returns `0.0`, while the claim's reading promises
`0.5 * p(e1)` (= 50) when the first entry's code is unknown. -/
theorem C4_counterexample :
    lookupA mcEmptyName (pyStrip rowEmptyName2.convenio) = some linhaEmptyName ∧
    splitOnPred (fun c => c == '\n') (pyStrip rowEmptyName2.procedimento) = [['Z', 'Z'], ['7']] ∧
    lookupA mbSeven (procCodigo ['Z', 'Z']) = none ∧
    calcular_faturamento_memoria mcEmptyName mbSeven rowEmptyName2 = PyFloat.finite 0 ∧
    mulPF (listSumPF ([['7']].map (precoEntry mbSeven linhaEmptyName))) (PyFloat.finite (1 / 2)) =
      PyFloat.finite 50 ∧
    (PyFloat.finite 0 : PyFloat) ≠ PyFloat.finite 50 := by
  decide

/-- C4 (amended): an entry whose procedure code is not in the CBHPM table
prices at 0.0 and is skipped without affecting the other entries, and for
every surgery whose (nonempty) trimmed agreement name resolves in the fee
table and whose trimmed procedure text is neither empty nor `nan`, when the
FIRST entry's code is unknown the total is exactly half the sum of the
remaining entries' prices — the full-price position stays at textual index 0
and no entry contributes its full price. -/
theorem C4_amended :
    (∀ (mapa_cbhpm : MapaCbhpm) (linha_convenio : ConvRow) (proc : List Char),
      lookupA mapa_cbhpm (procCodigo proc) = none →
      precoEntry mapa_cbhpm linha_convenio proc = PyFloat.finite 0)
    ∧ (∀ (mapa_convenios : MapaConvenios) (mapa_cbhpm : MapaCbhpm) (row : Cirurgia)
        (linha_convenio : ConvRow) (e0 : List Char) (rest : List (List Char)),
        pyStrip row.convenio ≠ [] →
        pyStrip row.procedimento ≠ [] →
        pyStrip row.procedimento ≠ ['n', 'a', 'n'] →
        lookupA mapa_convenios (pyStrip row.convenio) = some linha_convenio →
        splitOnPred (fun c => c == '\n') (pyStrip row.procedimento) = e0 :: rest →
        lookupA mapa_cbhpm (procCodigo e0) = none →
        calcular_faturamento_memoria mapa_convenios mapa_cbhpm row =
          mulPF (listSumPF (rest.map (precoEntry mapa_cbhpm linha_convenio)))
            (PyFloat.finite (1 / 2))) := by
  constructor
  · intro mapa_cbhpm linha_convenio proc hl
    simp [precoEntry, hl]
  · intro mapa_convenios mapa_cbhpm row linha_convenio e0 rest h1 h2 h3 h4 h5 h6
    rw [calcular_formula mapa_convenios mapa_cbhpm row linha_convenio e0 rest h1 h2 h3 h4 h5]
    have hz : precoEntry mapa_cbhpm linha_convenio e0 = PyFloat.finite 0 := by
      simp [precoEntry, h6]
    rw [hz, addPF_zero_left]

/-- C4, witness: unknown first code `ZZ` followed by `P2` (price 200) yields
half of 200. -/
theorem C4_witness :
    calcular_faturamento_memoria mcEnd mbEnd rowC4w = PyFloat.finite 100 := by
  have h := C4_amended.2 mcEnd mbEnd rowC4w linhaEnd ['Z', 'Z'] [['P', '2']]
    (by decide) (by decide) (by decide) (by decide) (by decide) (by decide)
  rw [h]
  decide

/-- C5, counterexample: a surgery billed NaN (fee cell `nan`) with no
duration has absent `R$/Hora`, so the claim says its billed value still
counts toward the total and the average ticket; but the pandas sum of line
143 skips NaN, so the grand total is the same with or without that surgery
(100 either way) and the average ticket's numerator ignores it — only the
surgery count (the denominator) sees it. -/
theorem C5_counterexample :
    (deriveRow mcNaN mbCtr rowNaN).rshora = none ∧
    (deriveRow mcNaN mbCtr rowNaN).valor = PyFloat.nan ∧
    faturamento_total mcNaN mbCtr [rowNaN, rowGoodB] = PyFloat.finite 100 ∧
    faturamento_total mcNaN mbCtr [rowGoodB] = PyFloat.finite 100 ∧
    total_cirurgias [rowNaN, rowGoodB] = 2 ∧
    ticket_medio mcNaN mbCtr [rowNaN, rowGoodB] = PyFloat.finite 50 := by
  decide

/-- C5 (amended): a surgery's `R$/Hora` is absent (`None`) exactly when its
parsed hours is absent or `≤ 0`, and otherwise equals billed value divided by
hours; every surgery with absent `R$/Hora` is excluded from `df_validos` (the
row set of the ranking and of the per-agreement summary) while the rows of
`df_validos` never carry a NaN billed value; every surgery still counts
toward the surgery count and the average-ticket denominator, and its billed
value still counts toward `faturamento_total` unless it is NaN, which the
pandas sum skips. -/
theorem C5_rshora : ∀ (mapa_convenios : MapaConvenios) (mapa_cbhpm : MapaCbhpm)
    (rows : List Cirurgia) (r : Cirurgia),
    ((deriveRow mapa_convenios mapa_cbhpm r).rshora = none ↔
      ((deriveRow mapa_convenios mapa_cbhpm r).horas = none ∨
        ∃ h, (deriveRow mapa_convenios mapa_cbhpm r).horas = some h ∧ h ≤ 0))
    ∧ (∀ h : ℚ, (deriveRow mapa_convenios mapa_cbhpm r).horas = some h → 0 < h →
        (deriveRow mapa_convenios mapa_cbhpm r).rshora =
          some (divPF (deriveRow mapa_convenios mapa_cbhpm r).valor (PyFloat.finite h)))
    ∧ (∀ d ∈ df_validos mapa_convenios mapa_cbhpm rows, d.rshora ≠ none)
    ∧ (∀ d ∈ df_validos mapa_convenios mapa_cbhpm rows, d.valor ≠ PyFloat.nan)
    ∧ faturamento_total mapa_convenios mapa_cbhpm rows =
        addPF (listSumPF ((df_validos mapa_convenios mapa_cbhpm rows).map (fun d => d.valor)))
          (listSumPF ((((derive mapa_convenios mapa_cbhpm rows).filter
            (fun d => isNA d.rshora)).map (fun d => d.valor)).filter
              (fun x => !(x == PyFloat.nan))))
    ∧ total_cirurgias rows = (df_validos mapa_convenios mapa_cbhpm rows).length +
        ((derive mapa_convenios mapa_cbhpm rows).filter (fun d => isNA d.rshora)).length
    ∧ (rows ≠ [] → ticket_medio mapa_convenios mapa_cbhpm rows =
        divPF (faturamento_total mapa_convenios mapa_cbhpm rows)
          (PyFloat.finite (total_cirurgias rows))) := by
  intro mapa_convenios mapa_cbhpm rows r
  have hcompl : (derive mapa_convenios mapa_cbhpm rows).filter
      (fun a => !(!(isNA a.rshora))) =
      (derive mapa_convenios mapa_cbhpm rows).filter (fun d => isNA d.rshora) :=
    filterCongrMem (fun a _ => Bool.not_not _)
  refine ⟨deriveRow_rshora_none_iff mapa_convenios mapa_cbhpm r,
    fun h hh hpos => deriveRow_rshora_pos mapa_convenios mapa_cbhpm r h hh hpos,
    ?_, valid_valor_ne_nan mapa_convenios mapa_cbhpm rows,
    faturamento_split mapa_convenios mapa_cbhpm rows, ?_, ?_⟩
  · intro d hd hnone
    have hna := (List.mem_filter.mp hd).2
    rw [hnone] at hna
    simp [isNA] at hna
  · unfold total_cirurgias df_validos
    have hlen : rows.length = (derive mapa_convenios mapa_cbhpm rows).length := by
      unfold derive
      rw [List.length_map]
    rw [hlen, length_split (fun d => !(isNA d.rshora)) (derive mapa_convenios mapa_cbhpm rows),
      hcompl]
  · intro hne
    rw [ticket_medio, if_pos]
    unfold total_cirurgias
    intro hz
    exact hne (List.length_eq_zero.mp hz)

/-- C5, witness: the second end-to-end surgery has hours 2 and value 200, so
its `R$/Hora` is present and equals 100. -/
theorem C5_witness :
    (deriveRow mcEnd mbEnd ⟨['X'], ['P', '2'], ['2', ':', '0', '0']⟩).rshora =
      some (PyFloat.finite 100) := by
  have h := (C5_rshora mcEnd mbEnd rowsEnd ⟨['X'], ['P', '2'], ['2', ':', '0', '0']⟩).2.1 2
    (by decide) (by decide)
  rw [h]
  decide

/-- C6 (confirmed): every row of `df_validos` carries present, strictly
positive hours, so every `groupby` group of the per-agreement summary has
total hours `> 0` and the division `Valor Virtual / Horas` of line 218 never
divides by zero. -/
theorem C6_group_hours : ∀ (mapa_convenios : MapaConvenios) (mapa_cbhpm : MapaCbhpm)
    (rows : List Cirurgia),
    (∀ d ∈ df_validos mapa_convenios mapa_cbhpm rows, ∃ h, d.horas = some h ∧ 0 < h)
    ∧ ∀ k ∈ convKeys mapa_convenios mapa_cbhpm rows,
        0 < resumo_horas mapa_convenios mapa_cbhpm rows k :=
  fun mapa_convenios mapa_cbhpm rows =>
    ⟨valid_horas_pos mapa_convenios mapa_cbhpm rows,
      resumo_horas_pos mapa_convenios mapa_cbhpm rows⟩

/-- C6, witness: the end-to-end scenario's only group has 3 hours. -/
theorem C6_witness : 0 < resumo_horas mcEnd mbEnd rowsEnd ['X'] :=
  (C6_group_hours mcEnd mbEnd rowsEnd).2 ['X'] (by decide)

/-- C7 (confirmed): `converter_para_horas` maps `"2:30"` to 2.5, the
empty/whitespace-only string and the literal `nan` to absent, any string that
does not split on `:` into exactly two parts (such as `"abc"` or `"1:2:3"`)
to absent, and any two-part split with a non-numeric part to absent; being a
total function, it never raises. -/
theorem C7_duration :
    converter_para_horas ['2', ':', '3', '0'] = some (5 / 2)
    ∧ converter_para_horas [] = none
    ∧ converter_para_horas [' ', '\t'] = none
    ∧ converter_para_horas ['n', 'a', 'n'] = none
    ∧ converter_para_horas ['a', 'b', 'c'] = none
    ∧ converter_para_horas ['1', ':', '2', ':', '3'] = none
    ∧ (∀ s : List Char, (splitOnPred (fun c => c == ':') (pyStrip s)).length ≠ 2 →
        converter_para_horas s = none)
    ∧ (∀ (s a b : List Char), splitOnPred (fun c => c == ':') (pyStrip s) = [a, b] →
        pyInt a = none ∨ pyInt b = none → converter_para_horas s = none) := by
  refine ⟨by decide, by decide, by decide, by decide, by decide, by decide, ?_, ?_⟩
  · intro s hlen
    by_cases hg : pyStrip s = [] ∨ pyStrip s = ['n', 'a', 'n']
    · simp [converter_para_horas, if_pos hg]
    · simp only [converter_para_horas, if_neg hg]
      rcases hsp : splitOnPred (fun c => c == ':') (pyStrip s) with _ | ⟨a, _ | ⟨b, _ | t⟩⟩
      · simp
      · simp
      · exfalso
        rw [hsp] at hlen
        simp at hlen
      · simp
  · intro s a b hsp hnone
    by_cases hg : pyStrip s = [] ∨ pyStrip s = ['n', 'a', 'n']
    · simp [converter_para_horas, if_pos hg]
    · simp only [converter_para_horas, if_neg hg, hsp]
      rcases hnone with h | h
      · cases hb : pyInt b <;> simp [h, hb]
      · cases ha : pyInt a <;> simp [h, ha]

/-- C7, witness: a two-part split with non-numeric parts is absent. -/
theorem C7_witness : converter_para_horas ['a', ':', 'b'] = none :=
  C7_duration.2.2.2.2.2.2.2 ['a', ':', 'b'] ['a'] ['b'] (by decide) (Or.inl (by decide))

/-- C8, counterexample: the input string `nan` is not a sentinel, survives
the cleaning chain unchanged, and `float('nan')` succeeds with a NaN; the
digit string 10^309 is likewise no sentinel and `float()` saturates it to
`inf` instead of raising.  Both are non-finite returns of `limpar_moeda`,
contradicting the claim that every return value is finite. -/
theorem C8_counterexample :
    limpar_moeda (some ['n', 'a', 'n']) = PyFloat.nan ∧
    isFinitePF (limpar_moeda (some ['n', 'a', 'n'])) = false ∧
    limpar_moeda (some one_e309) = PyFloat.inf ∧
    isFinitePF (limpar_moeda (some one_e309)) = false := by
  decide

/-- C8 (amended): `limpar_moeda` is total and never raises; absent input and
any input whose trimmed string form is `""`, `"-"` or `"0"` return 0.0, and
any input whose cleaned form fails to parse as a float also returns 0.0
instead of propagating an error; every return value is a float, and every
non-finite return comes from the float parse itself succeeding with a
non-finite value — an infinity/NaN literal (e.g. `"nan"`, `"inf"`) or a
decimal literal beyond the binary64 overflow bound (e.g. `"1e999"`), which
`float()` saturates to infinity. -/
theorem C8_amended :
    limpar_moeda none = PyFloat.finite 0
    ∧ (∀ s : List Char, pyStrip s = ['-'] ∨ pyStrip s = [] ∨ pyStrip s = ['0'] →
        limpar_moeda (some s) = PyFloat.finite 0)
    ∧ (∀ s : List Char, pyfloat (limparClean s) = none →
        limpar_moeda (some s) = PyFloat.finite 0)
    ∧ (∀ s : List Char, isFinitePF (limpar_moeda (some s)) = true ∨
        pyfloat (limparClean s) = some (limpar_moeda (some s))) := by
  refine ⟨rfl, ?_, ?_, ?_⟩
  · intro s h
    simp [limpar_moeda, if_pos h]
  · intro s h
    by_cases hs : pyStrip s = ['-'] ∨ pyStrip s = [] ∨ pyStrip s = ['0']
    · simp [limpar_moeda, if_pos hs]
    · simp [limpar_moeda, if_neg hs, h]
  · intro s
    by_cases hs : pyStrip s = ['-'] ∨ pyStrip s = [] ∨ pyStrip s = ['0']
    · left
      simp [limpar_moeda, if_pos hs, isFinitePF]
    · cases hp : pyfloat (limparClean s) with
      | none =>
        left
        simp [limpar_moeda, if_neg hs, hp, isFinitePF]
      | some f =>
        cases f with
        | finite q =>
          left
          simp [limpar_moeda, if_neg hs, hp, isFinitePF]
        | inf =>
          right
          simp [limpar_moeda, if_neg hs, hp]
        | neginf =>
          right
          simp [limpar_moeda, if_neg hs, hp]
        | nan =>
          right
          simp [limpar_moeda, if_neg hs, hp]

/-- C8, witness: a trimmed `-` sentinel returns 0.0. -/
theorem C8_witness : limpar_moeda (some [' ', '-', ' ']) = PyFloat.finite 0 :=
  C8_amended.2.1 [' ', '-', ' '] (Or.inl (by decide))

/-- C10, counterexample: for the 309-digit string of nines (a digits-and-dots
input) the claimed scaled value — the integer reading of the digits — is
beyond the binary64 overflow bound, and `float()` saturates it to `inf`, so
the result is not the scaled finite value. -/
theorem C10_counterexample :
    (∀ c ∈ nines309, c.isDigit = true ∨ c = '.') ∧
    limpar_moeda (some nines309) = PyFloat.inf ∧
    isFinitePF (limpar_moeda (some nines309)) = false ∧
    limpar_moeda (some nines309) ≠
      PyFloat.finite ((digitsVal (nines309.filter (fun c => c.isDigit)) : ℚ)) := by
  decide

/-- C10 (amended): `limpar_moeda` deletes every `.` before converting `,` to
`.`, so `.` never acts as a decimal point: on any string of digits and dots
whose digit value stays below the binary64 overflow bound, the result is the
integer value of the digits with the dots removed (beyond the bound the parse
saturates to infinity) — in particular `"1.5"` parses as 15.0 and `"10.00"`
as 1000.0. -/
theorem C10_dots_scale :
    (∀ s : List Char, (∀ c ∈ s, c.isDigit = true ∨ c = '.') →
      (digitsVal (s.filter (fun c => c.isDigit)) : ℚ) < ovThreshold →
      limpar_moeda (some s) =
        PyFloat.finite ((digitsVal (s.filter (fun c => c.isDigit)) : ℚ)))
    ∧ limpar_moeda (some ['1', '.', '5']) = PyFloat.finite 15
    ∧ limpar_moeda (some ['1', '0', '.', '0', '0']) = PyFloat.finite 1000 :=
  ⟨fun _ h hb => limpar_digits_dots h hb, by decide, by decide⟩

/-- C10, witness: `"7.25"` parses as 725. -/
theorem C10_witness : limpar_moeda (some ['7', '.', '2', '5']) = PyFloat.finite 725 := by
  have h := C10_dots_scale.1 ['7', '.', '2', '5'] (by decide) (by decide)
  rw [h]
  decide

/-- C9 (confirmed): for every procedure list and every agreement name whose
trimmed form is not a key of the agreement fee table,
`calcular_faturamento_memoria` returns 0.0 regardless of the procedure
list's contents. -/
theorem C9_unknown_agreement : ∀ (mapa_convenios : MapaConvenios) (mapa_cbhpm : MapaCbhpm)
    (row : Cirurgia), lookupA mapa_convenios (pyStrip row.convenio) = none →
    calcular_faturamento_memoria mapa_convenios mapa_cbhpm row = PyFloat.finite 0 := by
  intro mapa_convenios mapa_cbhpm row hl
  by_cases hg : pyStrip row.convenio = [] ∨ pyStrip row.procedimento = [] ∨
      pyStrip row.procedimento = ['n', 'a', 'n']
  · simp [calcular_faturamento_memoria, if_pos hg]
  · simp [calcular_faturamento_memoria, if_neg hg, hl]

/-- C9, witness: agreement `Y` is not in the (empty) fee table. -/
theorem C9_witness :
    calcular_faturamento_memoria [] mbSpec ⟨['Y'], ['P', '1'], ['1', ':', '0', '0']⟩ =
      PyFloat.finite 0 :=
  C9_unknown_agreement [] mbSpec ⟨['Y'], ['P', '1'], ['1', ':', '0', '0']⟩ (by decide)
